import Mathlib

/-!
Shallow embedding of the Blackbox-Mini-Src-Labeller repository.

The repository holds three Python scripts:
* `src/file_finder.py` — walks a directory tree, keeps every `.java` file
  whose line count lies within a threshold of a desired size, pairs each
  kept source path with a metadata path (`.java` replaced by `.json`), and
  pickles the sorted list of pairs.
* `src/labeler.py` — collects a label vocabulary from the operator, rescans
  a directory, draws a random sample of the found files with
  `random.choices`, shows each sampled file and its metadata, and records
  one labelled row per sampled file into a CSV.
* `src/labeller.py` — an earlier variant: no sampling, it prompts for a
  label for every `.java` file in walk order.

Python strings, `os.walk` traversals, the operator's input stream and the
random generator are modelled explicitly below; fallible file reads are
modelled with `Option`/`Except`, and uncaught Python exceptions surface as
an `error`/`exn` result.
-/

namespace BBMini

/-- Model of Python `str.isdigit()`: the string is nonempty and every
character is a decimal digit. -/
def pyIsdigit (s : String) : Bool :=
  !s.data.isEmpty && s.data.all Char.isDigit

/-- Model of Python `int(s)` restricted to the shapes the scripts meet:
an optional sign followed by decimal digits; any other string makes
`int` raise `ValueError`, modelled as `none`. -/
def digitsVal : List Char → Option Int
  | cs => if !cs.isEmpty && cs.all Char.isDigit
          then some (cs.foldl (fun a c => 10 * a + ((c.toNat : Int) - 48)) 0)
          else none

/-- Python `int(s)` on a possibly signed decimal literal. -/
def pyInt (s : String) : Option Int :=
  match s.data with
  | '-' :: cs => (digitsVal cs).map (fun n => -n)
  | '+' :: cs => digitsVal cs
  | cs => digitsVal cs

/-- Model of `os.path.join(path, filename)` for a directory path without a
trailing separator, as produced by `os.walk`. -/
def joinPath (p f : String) : String := p ++ "/" ++ f

/-- Model of Python `str.endswith(pat)`. -/
def pyEndsWith (s pat : String) : Bool := pat.data.isSuffixOf s.data

/-- Fuelled worker for `pyReplace`: scans the haystack left to right and
replaces each non-overlapping occurrence of `pat` by `rep`, exactly as
Python `str.replace` does.  Each step consumes at least one character, so
fuel equal to the haystack length suffices. -/
def replaceFuel (pat rep : List Char) : Nat → List Char → List Char
  | _, [] => []
  | 0, s => s
  | fuel + 1, c :: cs =>
    if pat.isPrefixOf (c :: cs) && !pat.isEmpty then
      rep ++ replaceFuel pat rep fuel (cs.drop (pat.length - 1))
    else
      c :: replaceFuel pat rep fuel cs

/-- Model of Python `s.replace(pat, rep)`: every non-overlapping occurrence
of `pat` in `s`, found left to right, is replaced by `rep`. -/
def pyReplace (s pat rep : String) : String :=
  ⟨replaceFuel pat.data rep.data s.data.length s.data⟩

namespace FileFinder

/-- A directory entry as the Finder sees it: the file name, and the outcome
of `open(file).readlines()` — `some n` when the file reads as text with `n`
lines, `none` when the read raises (unreadable / non-text file). -/
structure SrcFile where
  name : String
  read : Option Nat
deriving Repr, DecidableEq

/-- One step of the `os.walk` traversal: the directory path together with
the regular files found in it, in traversal order. -/
structure WalkDir where
  path : String
  files : List SrcFile
deriving Repr, DecidableEq

/-- `file_finder.py` / `labeler.py`, `process_src`: join the path, count the
lines, and return the path when the count lies within the threshold of the
desired size; an unreadable file raises, modelled as `Except.error` naming
the offending path. -/
def process_src (path : String) (filename : String) (read : Option Nat)
    (desired_size line_threshold : Int) : Except String (Option String) :=
  let file_path := joinPath path filename
  match read with
  | none => .error file_path
  | some file_length =>
    .ok (if desired_size - line_threshold ≤ (file_length : Int) ∧
            (file_length : Int) ≤ desired_size + line_threshold
         then some file_path else none)

/-- `file_finder.py` / `labeler.py`, `process_meta`: Python
`src_file.replace(".java", ".json")`. -/
def process_meta (src_file : String) : String :=
  pyReplace src_file ".java" ".json"

/-- `pool.starmap` / `pool.map` over tasks that may raise: every task is
independent, and the first raising task (in submission order) aborts the
collected result. -/
def mapE (f : α → Except String β) : List α → Except String (List β)
  | [] => .ok []
  | a :: as =>
    match f a, mapE f as with
    | .error e, _ => .error e
    | .ok _, .error e => .error e
    | .ok b, .ok bs => .ok (b :: bs)

/-- `file_finder.py` / `labeler.py`, `get_all_files`: walk the tree, run
`process_src` on every file whose name ends in `.java`, flatten, drop the
`None` results (`filter(None, ...)`; joined paths are never the empty
string, so truthiness coincides with being non-`None`), sort, map
`process_meta` over the sorted sources, sort that list as well, and zip the
two sorted lists. -/
def get_all_files (walk : List WalkDir) (desired_size line_threshold : Int) :
    Except String (List (String × String)) :=
  match mapE (fun d =>
      mapE (fun f => process_src d.path f.name f.read desired_size line_threshold)
        (d.files.filter (fun f => pyEndsWith f.name ".java"))) walk with
  | .error e => .error e
  | .ok src_lists =>
    let src_files := src_lists.flatten.reduceOption
    let src_sorted := List.insertionSort (· ≤ ·) src_files
    let meta_files := src_sorted.map process_meta
    let meta_sorted := List.insertionSort (· ≤ ·) meta_files
    .ok (src_sorted.zip meta_sorted)

end FileFinder

/-- Outcome of one `__main__` argument-dispatch block. -/
inductive CliResult where
  /-- wrong argument count: usage is logged and nothing else runs -/
  | usageExit : CliResult
  /-- numeric validation failed: logged, `main` is not called -/
  | argError : CliResult
  /-- validation passed and `main` is entered with these positional args -/
  | ranMain : List String → CliResult
  /-- an uncaught exception escaped before `main` could run -/
  | crashed : String → CliResult
deriving Repr, DecidableEq

namespace Labeler

/-- `labeler.py`, `get_labels`: read the label count from the operator
(re-prompting, i.e. recursing, while the answer is not all digits), then
read that many label strings.  The operator's answers are modelled as a
list; an exhausted list means the script blocks forever on `input()`,
modelled as `none`. -/
def get_labels (label_name : String) : List String → Option (List String × List String)
  | [] => none
  | number_of_labels :: rest =>
    if pyIsdigit number_of_labels then
      let n := ((pyInt number_of_labels).getD 0).toNat
      if n ≤ rest.length then some (rest.take n, rest.drop n) else none
    else get_labels label_name rest

/-- `labeler.py`, `assign_label`: read an answer; while it is not in the
declared label set, log and recurse.  Returns the accepted label together
with the unconsumed answers; an exhausted stream blocks (`none`). -/
def assign_label (labels : List String) : List String → Option (String × List String)
  | [] => none
  | label :: rest =>
    if label ∉ labels then assign_label labels rest
    else some (label, rest)

/-- `labeler.py`, `get_desired_file_length`: re-prompt until the answer is
all digits, then return it as an integer. -/
def get_desired_file_length (line_threshold : Int) : List String → Option (Int × List String)
  | [] => none
  | length :: rest =>
    if pyIsdigit length then some ((pyInt length).getD 0, rest)
    else get_desired_file_length line_threshold rest

/-- `random.choices(files, k := k)`: `k` independent draws with
replacement; the generator state is modelled by `rng`, giving the index
drawn at each step (reduced mod the population size, as `choices` does). -/
def randomChoices (files : List α) (k : Nat) (rng : Nat → Nat) : List α :=
  (List.range k).filterMap (fun i => files[rng i % files.length]?)

/-- `labeler.py`, `main` lines 161–164: clamp the requested size to the
number of available files, then draw that many with `random.choices`. -/
def sample_files (files : List α) (sample_size : Nat) (rng : Nat → Nat) : List α :=
  let k := if sample_size ≥ files.length then files.length else sample_size
  randomChoices files k rng

/-- One record appended to `output_data`: the dict literal of
`labeler.py` line 182 (its `file_name` key holds the whole (src, meta)
tuple, and the label column holds the assigned label). -/
structure Row where
  file_name : String × String
  source : String
  compile_result : String
  label : String
deriving Repr, DecidableEq

/-- Outcome of an interactive run: a value, an uncaught exception naming
the offending path, or blocking forever on operator input. -/
inductive RunResult (α : Type) where
  | ok : α → RunResult α
  | exn : String → RunResult α
  | blocked : RunResult α
deriving Repr, DecidableEq

/-- `labeler.py`, `main` lines 166–187: the labelling loop over the drawn
sample.  `metaStore` maps a metadata path to its parsed `compile_result`
(`none`: `open` raises `FileNotFoundError`); `srcStore` maps a source path
to its text.  Rows accumulate in order; an exception mid-loop discards the
unwritten table, exactly as the script only reaches `to_csv` after the
loop. -/
def labelLoop (labels : List String) (metaStore srcStore : String → Option String) :
    List (String × String) → List String → RunResult (List Row × List String)
  | [], inputs => .ok ([], inputs)
  | file :: random_files, inputs =>
    match metaStore file.2 with
    | none => .exn file.2
    | some meta =>
      match srcStore file.1 with
      | none => .exn file.1
      | some src =>
        match assign_label labels inputs with
        | none => .blocked
        | some (label, inputs') =>
          match labelLoop labels metaStore srcStore random_files inputs' with
          | .ok (rows, restInputs) =>
            .ok ({ file_name := file, source := src, compile_result := meta,
                   label := label } :: rows, restInputs)
          | .exn e => .exn e
          | .blocked => .blocked

/-- `labeler.py`, `main`: `dir_valid` models `os.path.isdir`.  `.ok none`
is an early clean return with no CSV written; `.ok (some rows)` means the
CSV was written with exactly `rows`. -/
def main (dir_valid : Bool) (walk : List FileFinder.WalkDir) (output_file : String)
    (sample_size : Nat) (line_threshold : Int) (label_name : String)
    (metaStore srcStore : String → Option String) (rng : Nat → Nat)
    (inputs : List String) : RunResult (Option (List Row)) :=
  if !dir_valid then .ok none
  else if !pyEndsWith output_file ".csv" then .ok none
  else
    match get_labels label_name inputs with
    | none => .blocked
    | some (labels, inputs₁) =>
      match get_desired_file_length line_threshold inputs₁ with
      | none => .blocked
      | some (file_length, inputs₂) =>
        match FileFinder.get_all_files walk file_length line_threshold with
        | .error e => .exn e
        | .ok files =>
          if files.length = 0 then .ok none
          else
            match labelLoop labels metaStore srcStore
                (sample_files files sample_size rng) inputs₂ with
            | .ok (rows, _) => .ok (some rows)
            | .exn e => .exn e
            | .blocked => .blocked

/-- `labeler.py`, `__main__` dispatch (lines 190–211): five positional
args; `args[2]` and `args[3]` must be all digits, otherwise the script
logs and returns without calling `main`. -/
def labeler_cli (args : List String) : CliResult :=
  if args.length ≠ 5 then .usageExit
  else if !(pyIsdigit (args.getD 2 "") && pyIsdigit (args.getD 3 "")) then .argError
  else .ranMain args

end Labeler

namespace Labeller

/-- `labeller.py`, `get_labels`: textually identical logic to
`labeler.py`'s. -/
def get_labels (label_name : String) : List String → Option (List String × List String)
  | [] => none
  | number_of_labels :: rest =>
    if pyIsdigit number_of_labels then
      let n := ((pyInt number_of_labels).getD 0).toNat
      if n ≤ rest.length then some (rest.take n, rest.drop n) else none
    else get_labels label_name rest

/-- `labeller.py`, `assign_label`: same retry-by-recursion as
`labeler.py`'s, with a shorter prompt. -/
def assign_label (labels : List String) : List String → Option (String × List String)
  | [] => none
  | label :: rest =>
    if label ∉ labels then assign_label labels rest
    else some (label, rest)

/-- A file as `labeller.py` sees it: name and text content. -/
structure LFile where
  name : String
  content : String
deriving Repr, DecidableEq

/-- One step of `os.walk` for `labeller.py`. -/
structure WalkDir where
  path : String
  files : List LFile
deriving Repr, DecidableEq

/-- One record of `labeller.py`'s `output_data` (line 85). -/
structure Row where
  file_name : String
  source : String
  label : String
deriving Repr, DecidableEq

/-- Inner loop of `labeller.py` `main` (lines 75–85): every `.java` file
of one directory, in listing order, is shown and labelled.  `none` models
blocking forever on operator input. -/
def fileLoop (labels : List String) (path : String) :
    List LFile → List String → Option (List Row × List String)
  | [], inputs => some ([], inputs)
  | f :: files, inputs =>
    if pyEndsWith f.name ".java" then
      match assign_label labels inputs with
      | none => none
      | some (label, inputs') =>
        match fileLoop labels path files inputs' with
        | some (rows, restInputs) =>
          some ({ file_name := joinPath path f.name, source := f.content,
                  label := label } :: rows, restInputs)
        | none => none
    else fileLoop labels path files inputs

/-- Outer loop of `labeller.py` `main` (line 74): directories in walk
order. -/
def dirLoop (labels : List String) :
    List WalkDir → List String → Option (List Row × List String)
  | [], inputs => some ([], inputs)
  | d :: dirs, inputs =>
    match fileLoop labels d.path d.files inputs with
    | none => none
    | some (rows, inputs') =>
      match dirLoop labels dirs inputs' with
      | none => none
      | some (rows', restInputs) => some (rows ++ rows', restInputs)

/-- `labeller.py`, `main` (lines 52–87).  `dir_valid` models
`os.path.isdir`.  The outer `Option` is blocking on operator input; the
inner `Option` is `none` for an early clean return with no CSV written and
`some rows` when `to_csv` wrote exactly `rows`.  `sample_size` is a
parameter of the script but is never read in the body. -/
def main (dir_valid : Bool) (walk : List WalkDir) (output_file : String)
    (sample_size : Int) (label_name : String) (inputs : List String) :
    Option (Option (List Row)) :=
  if !dir_valid then some none
  else if !pyEndsWith output_file ".csv" then some none
  else
    match get_labels label_name inputs with
    | none => none
    | some (labels, inputs₁) =>
      match dirLoop labels walk inputs₁ with
      | none => none
      | some (rows, _) => some (some rows)

/-- `labeller.py`, `__main__` dispatch (lines 90–108): four positional
args.  When `args[2]` is not all digits the script logs the complaint but
still falls through to evaluate `int(args[2])` in the call to `main`
(there is no `else` around that call), so a string `int()` cannot parse
raises an uncaught `ValueError`. -/
def labeller_cli (args : List String) : CliResult :=
  if args.length ≠ 4 then .usageExit
  else
    match pyInt (args.getD 2 "") with
    | none => .crashed "ValueError"
    | some _ => .ranMain args

end Labeller

/-! ### Helper lemmas -/

/-- The retry-by-recursion of `assign_label` returns exactly the first
element of the answer stream that belongs to the declared label set,
together with the unconsumed answers. -/
theorem assign_label_spec (labels : List String) :
    ∀ (inputs : List String) (l : String) (rest : List String),
      Labeler.assign_label labels inputs = some (l, rest) →
      l ∈ labels ∧ ∃ pre, inputs = pre ++ l :: rest ∧ ∀ x ∈ pre, x ∉ labels := by
  intro inputs
  induction inputs with
  | nil => intro l rest h; simp [Labeler.assign_label] at h
  | cons a as ih =>
    intro l rest h
    by_cases ha : a ∈ labels
    · rw [Labeler.assign_label, if_neg (by simpa using ha)] at h
      obtain ⟨h1, h2⟩ : a = l ∧ as = rest := by simpa using h
      exact ⟨h1 ▸ ha, [], by simp [h1, h2], by simp⟩
    · rw [Labeler.assign_label, if_pos (by simpa using ha)] at h
      obtain ⟨hl, pre, hpre, hall⟩ := ih l rest h
      refine ⟨hl, a :: pre, by simp [hpre], ?_⟩
      intro x hx
      rcases List.mem_cons.mp hx with hx | hx
      · exact hx ▸ ha
      · exact hall x hx

/-- The two scripts' `assign_label` functions compute the same result on
every vocabulary and answer stream. -/
theorem assign_label_scripts_agree :
    Labeller.assign_label = Labeler.assign_label := by
  funext labels inputs
  induction inputs with
  | nil => rfl
  | cons a as ih =>
    rw [Labeller.assign_label, Labeler.assign_label]
    by_cases ha : a ∈ labels <;> simp [ha, ih]

/-- With an empty vocabulary `assign_label` consumes the whole stream and
never returns. -/
theorem assign_label_nil_labels :
    ∀ inputs : List String, Labeler.assign_label [] inputs = none := by
  intro inputs
  induction inputs with
  | nil => rfl
  | cons a as ih => rw [Labeler.assign_label, if_pos (by simp)]; exact ih

/-- A raising head task aborts the pool's collected result. -/
theorem mapE_cons_error {α β : Type} {f : α → Except String β} {a : α} {as : List α}
    {e : String} (h : f a = .error e) : FileFinder.mapE f (a :: as) = .error e := by
  rw [FileFinder.mapE, h]

/-- A pool map succeeds exactly when each task succeeds with the matching
result. -/
theorem mapE_ok_forall₂ {α β : Type} {f : α → Except String β} :
    ∀ {l : List α} {bs : List β},
      FileFinder.mapE f l = .ok bs ↔ List.Forall₂ (fun a b => f a = .ok b) l bs := by
  intro l
  induction l with
  | nil =>
    intro bs
    constructor
    · intro h
      obtain rfl : ([] : List β) = bs := by simpa [FileFinder.mapE] using h
      exact .nil
    · intro h; cases h; rfl
  | cons a as ih =>
    intro bs
    constructor
    · intro h
      rw [FileFinder.mapE] at h
      rcases ha : f a with e | b <;> rw [ha] at h
      · simp at h
      · rcases hr : FileFinder.mapE f as with e | bs' <;> rw [hr] at h
        · simp at h
        · obtain rfl : b :: bs' = bs := by simpa using h
          exact .cons ha (ih.mp hr)
    · intro h
      cases h with
      | cons hab htl => rw [FileFinder.mapE, hab, ih.mpr htl]

/-- Membership in a successful pool map's result corresponds to a
successful task over some input element. -/
theorem mapE_ok_mem {α β : Type} {f : α → Except String β} :
    ∀ {l : List α} {bs : List β}, FileFinder.mapE f l = .ok bs → ∀ b : β,
      (b ∈ bs ↔ ∃ a ∈ l, f a = .ok b) := by
  intro l
  induction l with
  | nil =>
    intro bs h b
    obtain rfl : ([] : List β) = bs := by simpa [FileFinder.mapE] using h
    simp
  | cons a as ih =>
    intro bs h b
    rw [FileFinder.mapE] at h
    rcases ha : f a with e | b' <;> rw [ha] at h
    · simp at h
    · rcases hr : FileFinder.mapE f as with e | bs' <;> rw [hr] at h
      · simp at h
      · obtain rfl : b' :: bs' = bs := by simpa using h
        rw [List.mem_cons, ih hr b]
        constructor
        · rintro (rfl | ⟨x, hx, hfx⟩)
          · exact ⟨a, by simp, ha⟩
          · exact ⟨x, by simp [hx], hfx⟩
        · rintro ⟨x, hx, hfx⟩
          rcases List.mem_cons.mp hx with rfl | hx
          · left; exact (Except.ok.inj (ha.symm.trans hfx)).symm
          · right; exact ⟨x, hx, hfx⟩

/-- `process_src` succeeds with a kept path exactly for a readable file
whose line count lies in the inclusive tolerance window. -/
theorem process_src_ok_some {path filename : String} {read : Option Nat}
    {desired_size line_threshold : Int} {p : String} :
    FileFinder.process_src path filename read desired_size line_threshold =
        .ok (some p) ↔
      p = joinPath path filename ∧ ∃ n, read = some n ∧
        desired_size - line_threshold ≤ (n : Int) ∧
        (n : Int) ≤ desired_size + line_threshold := by
  rcases read with _ | n
  · simp [FileFinder.process_src]
  · rw [FileFinder.process_src]
    by_cases hr : desired_size - line_threshold ≤ (n : Int) ∧
        (n : Int) ≤ desired_size + line_threshold
    · simp only [if_pos hr]
      constructor
      · intro h
        simp only [Except.ok.injEq, Option.some.injEq] at h
        subst h
        exact ⟨rfl, n, rfl, hr.1, hr.2⟩
      · rintro ⟨rfl, n', hn', -, -⟩
        simp
    · simp only [if_neg hr]
      constructor
      · intro h; simp at h
      · rintro ⟨rfl, n', hn', h1, h2⟩
        obtain rfl : n = n' := by simpa using hn'
        exact absurd ⟨h1, h2⟩ hr

/-- Every input element of a successful pool map contributes a successful
task result that appears in the output. -/
theorem mapE_ok_of_mem {α β : Type} {f : α → Except String β} :
    ∀ {l : List α} {bs : List β} {a : α},
      FileFinder.mapE f l = .ok bs → a ∈ l → ∃ b ∈ bs, f a = .ok b := by
  intro l
  induction l with
  | nil => intro bs a _ ha; simp at ha
  | cons x xs ih =>
    intro bs a h ha
    rw [FileFinder.mapE] at h
    rcases hx : f x with e | b <;> rw [hx] at h
    · simp at h
    rcases hr : FileFinder.mapE f xs with e | bs' <;> rw [hr] at h
    · simp at h
    obtain rfl : b :: bs' = bs := by simpa using h
    rcases List.mem_cons.mp ha with rfl | ha
    · exact ⟨b, by simp, hx⟩
    · obtain ⟨b', hb', hfb'⟩ := ih hr ha
      exact ⟨b', by simp [hb'], hfb'⟩

/-- Decomposition of a successful pool map on a cons. -/
theorem mapE_cons_ok_elim {α β : Type} {f : α → Except String β} {a : α}
    {as : List α} {bs : List β} (h : FileFinder.mapE f (a :: as) = .ok bs) :
    ∃ b bs', f a = .ok b ∧ FileFinder.mapE f as = .ok bs' ∧ bs = b :: bs' := by
  rw [FileFinder.mapE] at h
  rcases hx : f a with e | b <;> rw [hx] at h
  · simp at h
  rcases hr : FileFinder.mapE f as with e | bs' <;> rw [hr] at h
  · simp at h
  exact ⟨b, bs', rfl, rfl, by simpa using h.symm⟩

/-- A pool map succeeds exactly when every task succeeds. -/
theorem mapE_isOk_iff {α β : Type} {f : α → Except String β} :
    ∀ {l : List α},
      (∃ bs, FileFinder.mapE f l = .ok bs) ↔ ∀ a ∈ l, ∃ b, f a = .ok b := by
  intro l
  induction l with
  | nil => simp [FileFinder.mapE]
  | cons x xs ih =>
    constructor
    · rintro ⟨bs, h⟩
      obtain ⟨b, bs', hx, hxs, rfl⟩ := mapE_cons_ok_elim h
      intro a ha
      rcases List.mem_cons.mp ha with rfl | ha
      · exact ⟨b, hx⟩
      · exact ih.mp ⟨bs', hxs⟩ a ha
    · intro hall
      obtain ⟨b, hb⟩ := hall x (by simp)
      obtain ⟨bs', hbs'⟩ := ih.mpr (fun a ha => hall a (by simp [ha]))
      exact ⟨b :: bs', by rw [FileFinder.mapE, hb, hbs']⟩

/-- A permutation of the submitted tasks permutes a successful pool map's
results. -/
theorem mapE_perm {α β : Type} {f : α → Except String β} :
    ∀ {l₁ l₂ : List α}, l₁.Perm l₂ →
      ∀ {b₁ b₂ : List β}, FileFinder.mapE f l₁ = .ok b₁ →
        FileFinder.mapE f l₂ = .ok b₂ → b₁.Perm b₂ := by
  intro l₁ l₂ hp
  induction hp with
  | nil =>
    intro b₁ b₂ h₁ h₂
    obtain rfl : ([] : List β) = b₁ := by simpa [FileFinder.mapE] using h₁
    obtain rfl : ([] : List β) = b₂ := by simpa [FileFinder.mapE] using h₂
    exact .nil
  | cons x p ih =>
    intro b₁ b₂ h₁ h₂
    obtain ⟨b, bs₁, hx₁, ht₁, rfl⟩ := mapE_cons_ok_elim h₁
    obtain ⟨b', bs₂, hx₂, ht₂, rfl⟩ := mapE_cons_ok_elim h₂
    obtain rfl : b = b' := Except.ok.inj (hx₁.symm.trans hx₂)
    exact .cons b (ih ht₁ ht₂)
  | swap x y t =>
    intro b₁ b₂ h₁ h₂
    obtain ⟨by₁, bs₁, hy₁, ht₁, rfl⟩ := mapE_cons_ok_elim h₁
    obtain ⟨bx₁, bt₁, hx₁, htt₁, rfl⟩ := mapE_cons_ok_elim ht₁
    obtain ⟨bx₂, bs₂, hx₂, ht₂, rfl⟩ := mapE_cons_ok_elim h₂
    obtain ⟨by₂, bt₂, hy₂, htt₂, rfl⟩ := mapE_cons_ok_elim ht₂
    obtain rfl : bx₁ = bx₂ := Except.ok.inj (hx₁.symm.trans hx₂)
    obtain rfl : by₁ = by₂ := Except.ok.inj (hy₁.symm.trans hy₂)
    obtain rfl : bt₁ = bt₂ := Except.ok.inj (htt₁.symm.trans htt₂)
    exact List.Perm.swap bx₁ by₁ bt₁
  | trans p₁ p₂ ih₁ ih₂ =>
    rename_i la lm lb
    intro b₁ b₂ h₁ h₂
    have hmid : ∃ bm, FileFinder.mapE f lm = .ok bm := by
      rw [mapE_isOk_iff]
      intro a ha
      obtain ⟨b, -, hfb⟩ := mapE_ok_of_mem h₁ (p₁.mem_iff.mpr ha)
      exact ⟨b, hfb⟩
    obtain ⟨bm, hm⟩ := hmid
    exact (ih₁ h₁ hm).trans (ih₂ hm h₂)

/-- Pointwise-permuted directory listings with equal paths give pointwise
permuted per-directory scan results. -/
theorem mapE_dirs_forall₂ {desired_size line_threshold : Int} :
    ∀ {v w : List FileFinder.WalkDir},
      List.Forall₂ (fun d₁ d₂ => d₁.path = d₂.path ∧ d₁.files.Perm d₂.files) v w →
      ∀ {Lv Lw : List (List (Option String))},
        FileFinder.mapE (fun d => FileFinder.mapE
          (fun f => FileFinder.process_src d.path f.name f.read desired_size line_threshold)
          (d.files.filter (fun f => pyEndsWith f.name ".java"))) v = .ok Lv →
        FileFinder.mapE (fun d => FileFinder.mapE
          (fun f => FileFinder.process_src d.path f.name f.read desired_size line_threshold)
          (d.files.filter (fun f => pyEndsWith f.name ".java"))) w = .ok Lw →
        List.Forall₂ (·.Perm ·) Lv Lw := by
  intro v w hfa
  induction hfa with
  | nil =>
    intro Lv Lw h₁ h₂
    obtain rfl : ([] : List (List (Option String))) = Lv := by
      simpa [FileFinder.mapE] using h₁
    obtain rfl : ([] : List (List (Option String))) = Lw := by
      simpa [FileFinder.mapE] using h₂
    exact .nil
  | cons hd htl ih =>
    rename_i d₁ d₂ ds₁ ds₂
    intro Lv Lw h₁ h₂
    obtain ⟨l₁, L₁, hd₁, ht₁, rfl⟩ := mapE_cons_ok_elim h₁
    obtain ⟨l₂, L₂, hd₂, ht₂, rfl⟩ := mapE_cons_ok_elim h₂
    obtain ⟨hpath, hfiles⟩ := hd
    rw [← hpath] at hd₂
    exact .cons (mapE_perm (hfiles.filter _) hd₁ hd₂) (ih ht₁ ht₂)

/-- Shape of a successful scan: the per-directory pool results exist, and
the returned list is the zip of the sorted kept sources with the
independently re-sorted metadata list. -/
theorem get_all_files_ok_elim {walk : List FileFinder.WalkDir}
    {desired_size line_threshold : Int} {out : List (String × String)}
    (h : FileFinder.get_all_files walk desired_size line_threshold = .ok out) :
    ∃ src_lists, FileFinder.mapE (fun d =>
        FileFinder.mapE
          (fun f => FileFinder.process_src d.path f.name f.read desired_size line_threshold)
          (d.files.filter (fun f => pyEndsWith f.name ".java"))) walk = .ok src_lists ∧
      out = (List.insertionSort (· ≤ ·) src_lists.flatten.reduceOption).zip
        (List.insertionSort (· ≤ ·)
          ((List.insertionSort (· ≤ ·) src_lists.flatten.reduceOption).map
            FileFinder.process_meta)) := by
  rw [FileFinder.get_all_files] at h
  split at h
  · simp at h
  · next src_lists heq =>
    refine ⟨src_lists, heq, ?_⟩
    simpa using h.symm

/-- The rows produced by `labeller.py`'s inner file loop are exactly one
per `.java` file, in listing order, each named by the joined path. -/
theorem fileLoop_file_names (labels : List String) (path : String) :
    ∀ (files : List Labeller.LFile) (inputs : List String)
      (rows : List Labeller.Row) (rest : List String),
      Labeller.fileLoop labels path files inputs = some (rows, rest) →
      rows.map Labeller.Row.file_name =
        (files.filter (fun f => pyEndsWith f.name ".java")).map
          (fun f => joinPath path f.name) := by
  intro files
  induction files with
  | nil =>
    intro inputs rows rest h
    obtain ⟨rfl, -⟩ : ([] : List Labeller.Row) = rows ∧ inputs = rest := by
      simpa [Labeller.fileLoop] using h
    simp
  | cons f fs ih =>
    intro inputs rows rest h
    rw [Labeller.fileLoop] at h
    by_cases hj : pyEndsWith f.name ".java" = true
    · rw [if_pos hj] at h
      rcases hal : Labeller.assign_label labels inputs with _ | ⟨l, inputs'⟩ <;>
        simp only [hal] at h
      · simp at h
      rcases hfl : Labeller.fileLoop labels path fs inputs' with _ | ⟨rows', rest'⟩ <;>
        simp only [hfl] at h
      · simp at h
      obtain ⟨rfl, -⟩ :
          ({ file_name := joinPath path f.name, source := f.content, label := l } :
            Labeller.Row) :: rows' = rows ∧ rest' = rest := by simpa using h
      rw [List.filter_cons_of_pos (by simpa using hj), List.map_cons, List.map_cons,
        ih inputs' rows' rest' hfl]
    · rw [if_neg hj] at h
      rw [List.filter_cons_of_neg (by simpa using hj)]
      exact ih inputs rows rest h

/-- The rows produced by `labeller.py`'s directory loop are one per
`.java` file under the walk, in walk order. -/
theorem dirLoop_file_names (labels : List String) :
    ∀ (walk : List Labeller.WalkDir) (inputs : List String)
      (rows : List Labeller.Row) (rest : List String),
      Labeller.dirLoop labels walk inputs = some (rows, rest) →
      rows.map Labeller.Row.file_name =
        walk.flatMap (fun d =>
          (d.files.filter (fun f => pyEndsWith f.name ".java")).map
            (fun f => joinPath d.path f.name)) := by
  intro walk
  induction walk with
  | nil =>
    intro inputs rows rest h
    obtain ⟨rfl, -⟩ : ([] : List Labeller.Row) = rows ∧ inputs = rest := by
      simpa [Labeller.dirLoop] using h
    simp
  | cons d ds ih =>
    intro inputs rows rest h
    rw [Labeller.dirLoop] at h
    rcases hfl : Labeller.fileLoop labels d.path d.files inputs with
      _ | ⟨rows₁, inputs'⟩ <;> simp only [hfl] at h
    · simp at h
    rcases hdl : Labeller.dirLoop labels ds inputs' with _ | ⟨rows₂, rest'⟩ <;>
      simp only [hdl] at h
    · simp at h
    obtain ⟨rfl, -⟩ : rows₁ ++ rows₂ = rows ∧ rest' = rest := by simpa using h
    rw [List.flatMap_cons, List.map_append,
      fileLoop_file_names labels d.path d.files inputs rows₁ inputs' hfl,
      ih inputs' rows₂ rest' hdl]

/-! ### Claim theorems -/

/-- C2 counterexample: with FileList `[("a","am"), ("b","bm")]` and
requested `sample_size = 3 > 2`, a generator state that repeatedly draws
index 0 yields the sample `[("a","am"), ("a","am")]`: it is not the full
FileList and it contains a duplicate file. -/
theorem sample_with_replacement_counterexample :
    Labeler.sample_files [("a", "am"), ("b", "bm")] 3 (fun _ => 0) =
      [("a", "am"), ("a", "am")] ∧
    Labeler.sample_files [("a", "am"), ("b", "bm")] 3 (fun _ => 0) ≠
      [("a", "am"), ("b", "bm")] ∧
    ¬ (Labeler.sample_files [("a", "am"), ("b", "bm")] 3 (fun _ => 0)).Nodup := by
  refine ⟨by decide, by decide, by decide⟩

/-- C2 (amended): the sampling step draws exactly
`min sample_size |files|` rows — in particular never more rows than there
are files — but it draws with replacement, so the sample may repeat
files. -/
theorem sample_size_never_exceeds_files {α : Type} (files : List α)
    (sample_size : Nat) (rng : Nat → Nat) :
    (Labeler.sample_files files sample_size rng).length =
      min sample_size files.length := by
  rcases files with _ | ⟨a, as⟩
  · simp [Labeler.sample_files, Labeler.randomChoices]
  · rw [Labeler.sample_files]
    have hk : (if sample_size ≥ (a :: as).length then (a :: as).length else sample_size) =
        min sample_size (a :: as).length := by
      split <;> omega
    have hall : ∀ i ∈ List.range (min sample_size (a :: as).length),
        ((a :: as)[rng i % (a :: as).length]?).isSome := by
      intro i _
      have hlt : rng i % (a :: as).length < (a :: as).length := Nat.mod_lt _ (by simp)
      rw [List.getElem?_eq_getElem hlt, Option.isSome_some]
    rw [hk, Labeler.randomChoices, List.filterMap_length_eq_length.mpr hall,
      List.length_range]

/-- C3: the pairing invariant fails.  With the flat directory `r` holding
the in-range files `a.java` and `a.jb.java`, the Finder sorts the
metadata list independently of the source list before zipping, so
`r/a.java` is paired with `r/a.jb.json` instead of its own substitution
`r/a.json` (second conjunct); moreover `process_meta` substitutes every
occurrence of ".java", not just the suffix, so a ".java" inside a
directory component is rewritten too (third conjunct). -/
theorem meta_pairing_bug :
    FileFinder.get_all_files [⟨"r", [⟨"a.java", some 5⟩, ⟨"a.jb.java", some 5⟩]⟩] 5 0 =
      .ok [("r/a.java", "r/a.jb.json"), ("r/a.jb.java", "r/a.json")] ∧
    FileFinder.process_meta "r/a.java" = "r/a.json" ∧
    FileFinder.process_meta "dir.java/a.java" = "dir.json/a.json" := by
  refine ⟨?_, by decide, by decide⟩
  simp +decide [FileFinder.get_all_files, FileFinder.mapE, FileFinder.process_src,
    FileFinder.process_meta, pyReplace, replaceFuel, joinPath, pyEndsWith,
    List.insertionSort, List.orderedInsert, List.reduceOption]

/-- C4 counterexample: with vocabulary `["readable","exit"]`, a two-file
sample and operator answers `["exit","readable"]`, entering "exit" for
the first file does not stop the session: the second file is still
prompted, and the persisted table holds both rows (the first labelled
"exit"), not only the rows completed before the exit. -/
theorem exit_not_reserved_counterexample :
    Labeler.labelLoop ["readable", "exit"] (fun _ => some "OK")
      (fun _ => some "class A {}")
      [("r/a.java", "r/a.json"), ("r/b.java", "r/b.json")] ["exit", "readable"] =
      .ok ([{ file_name := ("r/a.java", "r/a.json"), source := "class A {}",
              compile_result := "OK", label := "exit" },
            { file_name := ("r/b.java", "r/b.json"), source := "class A {}",
              compile_result := "OK", label := "readable" }], []) := by
  decide

/-- C4 (amended): no label value is reserved — "exit" in the vocabulary
is assigned like any other label.  A labelling pass that completes
persists exactly one row per sampled file, every label drawn from the
declared vocabulary; there is no early-stop-and-save path in the loop. -/
theorem exit_label_not_special (labels : List String)
    (metaStore srcStore : String → Option String) :
    ∀ (files : List (String × String)) (inputs rest : List String)
      (rows : List Labeler.Row),
      Labeler.labelLoop labels metaStore srcStore files inputs = .ok (rows, rest) →
      rows.length = files.length ∧ ∀ r ∈ rows, r.label ∈ labels := by
  intro files
  induction files with
  | nil =>
    intro inputs rest rows h
    rw [Labeler.labelLoop] at h
    obtain ⟨rfl, -⟩ : ([] : List Labeler.Row) = rows ∧ inputs = rest := by
      simpa using h
    simp
  | cons fl queue ih =>
    intro inputs rest rows h
    rw [Labeler.labelLoop] at h
    rcases hme : metaStore fl.2 with _ | meta <;> simp only [hme] at h
    · simp at h
    rcases hsr : srcStore fl.1 with _ | src <;> simp only [hsr] at h
    · simp at h
    rcases hal : Labeler.assign_label labels inputs with _ | ⟨l, inputs'⟩ <;>
      simp only [hal] at h
    · simp at h
    rcases hrec : Labeler.labelLoop labels metaStore srcStore queue inputs' with
      ⟨rows', rest'⟩ | e | _ <;> simp only [hrec] at h
    · obtain ⟨rfl, -⟩ :
          ({ file_name := fl, source := src, compile_result := meta,
             label := l } : Labeler.Row) :: rows' = rows ∧ rest' = rest := by
        simpa using h
      obtain ⟨hlen, hmem⟩ := ih inputs' rest' rows' hrec
      refine ⟨by simp [hlen], ?_⟩
      intro r hro
      rcases List.mem_cons.mp hro with rfl | hro
      · exact (assign_label_spec labels inputs l inputs' hal).1
      · exact hmem r hro
    · simp at h
    · simp at h

/-- C4 witness: the amended property instantiated at a completing
two-file session whose first answer is "exit" — it persists a row for
both files. -/
theorem exit_label_not_special_witness :
    ([{ file_name := (("r/a.java" : String), ("r/a.json" : String)),
        source := "class A {}", compile_result := "OK", label := "exit" },
      { file_name := ("r/b.java", "r/b.json"), source := "class A {}",
        compile_result := "OK", label := "readable" }] : List Labeler.Row).length =
      ([("r/a.java", "r/a.json"), ("r/b.java", "r/b.json")] :
        List (String × String)).length :=
  (exit_label_not_special ["readable", "exit"] (fun _ => some "OK")
    (fun _ => some "class A {}")
    [("r/a.java", "r/a.json"), ("r/b.java", "r/b.json")] ["exit", "readable"] []
    [{ file_name := ("r/a.java", "r/a.json"), source := "class A {}",
       compile_result := "OK", label := "exit" },
     { file_name := ("r/b.java", "r/b.json"), source := "class A {}",
       compile_result := "OK", label := "readable" }] (by decide)).1

/-- C5 counterexample: an unreadable `.java` candidate makes the whole
scan raise (the readable `good.java` is never returned), and a sampled
file whose metadata file is missing makes the labelling pass raise
instead of skipping the row. -/
theorem file_errors_abort_counterexample :
    FileFinder.get_all_files [⟨"r", [⟨"bad.java", none⟩, ⟨"good.java", some 5⟩]⟩] 5 0 =
      .error "r/bad.java" ∧
    Labeler.labelLoop ["yes"] (fun _ => none) (fun _ => some "class A {}")
      [("r/a.java", "r/a.json")] ["yes"] = .exn "r/a.json" := by
  constructor
  · simp +decide [FileFinder.get_all_files, FileFinder.mapE, FileFinder.process_src,
      joinPath, pyEndsWith]
  · decide

/-- C5 (amended): file-level errors abort the run rather than being
skipped: the scan raises as soon as the worker pool reaches an unreadable
`.java` candidate, returning no list at all, and a labelling pass raises
at a sampled file whose metadata file is missing, persisting nothing. -/
theorem file_errors_abort_run (p : String) (f : FileFinder.SrcFile)
    (fs : List FileFinder.SrcFile) (walk : List FileFinder.WalkDir)
    (desired_size line_threshold : Int)
    (hread : f.read = none) (hjava : pyEndsWith f.name ".java" = true)
    (labels : List String) (metaStore srcStore : String → Option String)
    (s m : String) (queue : List (String × String)) (inputs : List String)
    (hm : metaStore m = none) :
    FileFinder.get_all_files (⟨p, f :: fs⟩ :: walk) desired_size line_threshold =
      .error (joinPath p f.name) ∧
    Labeler.labelLoop labels metaStore srcStore ((s, m) :: queue) inputs =
      .exn m := by
  constructor
  · have hps : FileFinder.process_src p f.name f.read desired_size line_threshold =
        .error (joinPath p f.name) := by rw [hread]; rfl
    have hinner : FileFinder.mapE
        (fun f' => FileFinder.process_src p f'.name f'.read desired_size line_threshold)
        ((f :: fs).filter (fun f' => pyEndsWith f'.name ".java")) =
        .error (joinPath p f.name) := by
      rw [List.filter_cons_of_pos (by simpa using hjava)]
      exact mapE_cons_error hps
    have houter : FileFinder.mapE (fun d =>
        FileFinder.mapE
          (fun f' => FileFinder.process_src d.path f'.name f'.read desired_size line_threshold)
          (d.files.filter (fun f' => pyEndsWith f'.name ".java")))
        (⟨p, f :: fs⟩ :: walk) = .error (joinPath p f.name) :=
      mapE_cons_error hinner
    rw [FileFinder.get_all_files, houter]
  · rw [Labeler.labelLoop]
    simp [hm]

/-- C5 witness: the amended property instantiated at an unreadable
candidate and at a missing metadata file. -/
theorem file_errors_abort_run_witness :
    FileFinder.get_all_files [⟨"r", [⟨"bad.java", none⟩]⟩] 5 0 =
      .error (joinPath "r" "bad.java") ∧
    Labeler.labelLoop ["yes"] (fun _ => none) (fun _ => some "src")
      [("r/a.java", "r/a.json")] ["yes"] = .exn "r/a.json" :=
  file_errors_abort_run "r" ⟨"bad.java", none⟩ [] [] 5 0 rfl (by decide)
    ["yes"] (fun _ => none) (fun _ => some "src") "r/a.java" "r/a.json" []
    ["yes"] rfl

/-- C7: whenever `assign_label` returns, its result is the first element
of the operator's answer stream that belongs to the declared vocabulary
(so out-of-vocabulary answers are only ever skipped by a re-prompt, and
the returned label is always a vocabulary member); `labeller.py`'s
`assign_label` is the same function. -/
theorem assign_label_first_valid (labels inputs : List String) (l : String)
    (rest : List String)
    (h : Labeler.assign_label labels inputs = some (l, rest)) :
    (l ∈ labels ∧ ∃ pre, inputs = pre ++ l :: rest ∧ ∀ x ∈ pre, x ∉ labels) ∧
      Labeller.assign_label = Labeler.assign_label :=
  ⟨assign_label_spec labels inputs l rest h, assign_label_scripts_agree⟩

/-- C7 witness: vocabulary `["yes","no"]` with answers `["maybe","yes"]`
returns `"yes"` — a vocabulary member — after skipping the invalid
`"maybe"`, and the two scripts agree. -/
theorem assign_label_first_valid_witness :
    ("yes" : String) ∈ ["yes", "no"] ∧
      Labeller.assign_label = Labeler.assign_label := by
  have h := assign_label_first_valid ["yes", "no"] ["maybe", "yes"] "yes" []
    (by decide)
  exact ⟨h.1.1, h.2⟩

/-- C8: with four positional arguments but a non-numeric sample size,
`labeller.py` logs the complaint yet still evaluates `int(args[2])` in
the call to `main`, so the process dies with an uncaught `ValueError`
instead of returning cleanly; the `labeler.py` variant of the same
dispatch does return cleanly on its bad numeric argument. -/
theorem cli_nonnumeric_crashes :
    Labeller.labeller_cli ["/data/minisrc", "out.csv", "abc", "readable"] =
      .crashed "ValueError" ∧
    Labeler.labeler_cli ["/data/minisrc", "out.csv", "abc", "20", "readable"] =
      .argError := by
  exact ⟨by decide, by decide⟩

/-- C10: the answer `"0"` passes the `isdigit` gate of `get_labels` and
produces the empty vocabulary; against an empty vocabulary `assign_label`
never returns on any answer stream, so the first prompted file of the
labelling loop blocks the session forever. -/
theorem zero_label_count_blocks (label_name : String) (rest inputs : List String)
    (meta src s m : String) (queue : List (String × String)) :
    Labeler.get_labels label_name ("0" :: rest) = some ([], rest) ∧
    Labeler.assign_label [] inputs = none ∧
    Labeler.labelLoop [] (fun _ => some meta) (fun _ => some src)
      ((s, m) :: queue) inputs = .blocked := by
  refine ⟨?_, assign_label_nil_labels inputs, ?_⟩
  · have h0 : ((pyInt "0").getD 0).toNat = 0 := by decide
    rw [Labeler.get_labels, if_pos (by decide)]
    simp [h0]
  · rw [Labeler.labelLoop]
    simp [assign_label_nil_labels inputs]

/-- C9: `labeller.py`'s `main` never reads its `sample_size` argument
after CLI validation, so its behaviour is identical for every value of
it, and a completed run writes exactly one row per `.java` file under the
root, in directory-walk order. -/
theorem labeller_ignores_sample_size (dir_valid : Bool)
    (walk : List Labeller.WalkDir) (output_file : String) (s₁ s₂ : Int)
    (label_name : String) (inputs : List String) (rows : List Labeller.Row)
    (h : Labeller.main true walk output_file s₁ label_name inputs =
      some (some rows)) :
    Labeller.main dir_valid walk output_file s₁ label_name inputs =
      Labeller.main dir_valid walk output_file s₂ label_name inputs ∧
    rows.map Labeller.Row.file_name =
      walk.flatMap (fun d =>
        (d.files.filter (fun f => pyEndsWith f.name ".java")).map
          (fun f => joinPath d.path f.name)) := by
  refine ⟨rfl, ?_⟩
  have e1 : ¬((!(true : Bool)) = true) := by decide
  cases hcsv : pyEndsWith output_file ".csv" with
  | false =>
    rw [Labeller.main, hcsv] at h
    simp at h
  | true =>
    rw [Labeller.main, hcsv] at h
    simp only [if_neg e1] at h
    rcases hgl : Labeller.get_labels label_name inputs with _ | ⟨labels, inputs₁⟩ <;>
      simp only [hgl] at h
    · simp at h
    rcases hdl : Labeller.dirLoop labels walk inputs₁ with _ | ⟨rows', rest'⟩ <;>
      simp only [hdl] at h
    · simp at h
    obtain rfl : rows' = rows := by simpa using h
    exact dirLoop_file_names labels walk inputs₁ rows' rest' hdl

/-- C1: a path appears among the source entries of the Finder's output
exactly when it is a file of the scanned walk whose name ends in ".java"
and whose line count lies in the inclusive window
`[desired_size - line_threshold, desired_size + line_threshold]`; no file
outside the walk or with another extension is ever included. -/
theorem finder_keeps_exactly_in_range (walk : List FileFinder.WalkDir)
    (desired_size line_threshold : Int) (out : List (String × String))
    (h : FileFinder.get_all_files walk desired_size line_threshold = .ok out)
    (p : String) :
    (∃ m, (p, m) ∈ out) ↔
      ∃ d ∈ walk, ∃ f ∈ d.files, pyEndsWith f.name ".java" = true ∧
        p = joinPath d.path f.name ∧ ∃ n, f.read = some n ∧
          desired_size - line_threshold ≤ (n : Int) ∧
          (n : Int) ≤ desired_size + line_threshold := by
  obtain ⟨src_lists, hmw, rfl⟩ := get_all_files_ok_elim h
  set S := List.insertionSort (· ≤ ·) src_lists.flatten.reduceOption with hS
  set M := List.insertionSort (· ≤ ·) (S.map FileFinder.process_meta) with hM
  have hMlen : M.length = S.length := by
    rw [hM]
    rw [List.length_insertionSort]
    exact List.length_map _ _
  have hlen : S.length ≤ M.length := le_of_eq hMlen.symm
  have hzip : (∃ m, (p, m) ∈ S.zip M) ↔ p ∈ S := by
    constructor
    · rintro ⟨m, hm⟩
      exact (List.of_mem_zip hm).1
    · intro hp
      rw [← List.map_fst_zip S M hlen] at hp
      obtain ⟨⟨a, b⟩, hab, rfl⟩ := List.mem_map.mp hp
      exact ⟨b, hab⟩
  rw [hzip, hS, List.mem_insertionSort, List.reduceOption_mem_iff, List.mem_flatten]
  constructor
  · rintro ⟨l, hl, hpl⟩
    obtain ⟨d, hd, hdl⟩ := (mapE_ok_mem hmw l).mp hl
    obtain ⟨f, hf, hpf⟩ := (mapE_ok_mem hdl (some p)).mp hpl
    obtain ⟨hfd, hjava⟩ := List.mem_filter.mp hf
    obtain ⟨hp, n, hn, h1, h2⟩ := process_src_ok_some.mp hpf
    exact ⟨d, hd, f, hfd, by simpa using hjava, hp, n, hn, h1, h2⟩
  · rintro ⟨d, hd, f, hf, hjava, hp, n, hn, h1, h2⟩
    obtain ⟨l, hl, hdl⟩ := mapE_ok_of_mem hmw hd
    refine ⟨l, hl, ?_⟩
    exact (mapE_ok_mem hdl (some p)).mpr
      ⟨f, List.mem_filter.mpr ⟨hf, by simpa using hjava⟩,
        process_src_ok_some.mpr ⟨hp, n, hn, h1, h2⟩⟩

/-- C1 witness: scanning a root `r` holding a 5-line `a.java`, an
off-extension `b.txt` and an out-of-range `c.java` with target 5 and
tolerance 0 keeps exactly `r/a.java`. -/
theorem finder_keeps_exactly_in_range_witness :
    (("r/a.java", "r/a.json") : String × String) ∈ [("r/a.java", "r/a.json")] := by
  have hout : FileFinder.get_all_files
      [⟨"r", [⟨"a.java", some 5⟩, ⟨"b.txt", some 5⟩, ⟨"c.java", some 99⟩]⟩] 5 0 =
      .ok [("r/a.java", "r/a.json")] := by
    simp +decide [FileFinder.get_all_files, FileFinder.mapE, FileFinder.process_src,
      FileFinder.process_meta, pyReplace, replaceFuel, joinPath, pyEndsWith,
      List.insertionSort, List.orderedInsert, List.reduceOption]
  have h := (finder_keeps_exactly_in_range _ 5 0 _ hout "r/a.java").mpr
    ⟨⟨"r", [⟨"a.java", some 5⟩, ⟨"b.txt", some 5⟩, ⟨"c.java", some 99⟩]⟩, by simp,
      ⟨"a.java", some 5⟩, by simp, by decide, by decide, 5, rfl, by decide, by decide⟩
  obtain ⟨m, hm⟩ := h
  rw [List.mem_singleton] at hm
  rw [← hm]
  exact List.mem_singleton.mpr rfl

/-- C6: the Finder's output is sorted lexicographically by source path,
and two scans of the same filesystem whose walks differ only in traversal
order (directories permuted, files within each directory permuted) return
the same ordered list; the worker pool cannot affect this either, as the
pool map keeps submission order before the final sorts. -/
theorem finder_sorted_and_traversal_independent
    (w₁ w₂ : List FileFinder.WalkDir) (desired_size line_threshold : Int)
    (o₁ o₂ : List (String × String))
    (h₁ : FileFinder.get_all_files w₁ desired_size line_threshold = .ok o₁)
    (h₂ : FileFinder.get_all_files w₂ desired_size line_threshold = .ok o₂)
    (hw : ∃ w', w₁.Perm w' ∧ List.Forall₂
      (fun d₁ d₂ => d₁.path = d₂.path ∧ d₁.files.Perm d₂.files) w' w₂) :
    o₁ = o₂ ∧ (o₁.map Prod.fst).Sorted (· ≤ ·) := by
  obtain ⟨sl₁, hm₁, rfl⟩ := get_all_files_ok_elim h₁
  obtain ⟨sl₂, hm₂, rfl⟩ := get_all_files_ok_elim h₂
  obtain ⟨w', hperm, hfa⟩ := hw
  have hmid : ∃ slm, FileFinder.mapE (fun d => FileFinder.mapE
      (fun f => FileFinder.process_src d.path f.name f.read desired_size line_threshold)
      (d.files.filter (fun f => pyEndsWith f.name ".java"))) w' = .ok slm := by
    rw [mapE_isOk_iff]
    intro d hd
    obtain ⟨l, -, hl⟩ := mapE_ok_of_mem hm₁ (hperm.mem_iff.mpr hd)
    exact ⟨l, hl⟩
  obtain ⟨slm, hmm⟩ := hmid
  have hp₁ : sl₁.Perm slm := mapE_perm hperm hm₁ hmm
  have hp₂ : List.Forall₂ (·.Perm ·) slm sl₂ := mapE_dirs_forall₂ hfa hmm hm₂
  have hsrc : sl₁.flatten.reduceOption.Perm sl₂.flatten.reduceOption := by
    have hfl : sl₁.flatten.Perm sl₂.flatten :=
      (hp₁.flatten).trans (List.Perm.flatten_congr hp₂)
    exact hfl.filterMap id
  have hS : List.insertionSort (· ≤ ·) sl₁.flatten.reduceOption =
      List.insertionSort (· ≤ ·) sl₂.flatten.reduceOption :=
    List.eq_of_perm_of_sorted
      ((List.perm_insertionSort _ _).trans
        (hsrc.trans (List.perm_insertionSort _ _).symm))
      (List.sorted_insertionSort _ _) (List.sorted_insertionSort _ _)
  constructor
  · rw [hS]
  · set S := List.insertionSort (· ≤ ·) sl₁.flatten.reduceOption with hSdef
    have hMlen :
        (List.insertionSort (· ≤ ·) (S.map FileFinder.process_meta)).length =
          S.length := by
      rw [List.length_insertionSort]
      exact List.length_map _ _
    rw [List.map_fst_zip _ _ (le_of_eq hMlen.symm)]
    exact List.sorted_insertionSort _ _

/-- C6 witness: the same flat directory walked in two file orders gives
the identical sorted output. -/
theorem finder_sorted_and_traversal_independent_witness :
    ([("r/a.java", "r/a.json"), ("r/b.java", "r/b.json")] =
        [("r/a.java", "r/a.json"), ("r/b.java", "r/b.json")] ∧
      (([("r/a.java", "r/a.json"), ("r/b.java", "r/b.json")]).map
        Prod.fst).Sorted (· ≤ ·)) := by
  have h₁ : FileFinder.get_all_files
      [⟨"r", [⟨"a.java", some 5⟩, ⟨"b.java", some 5⟩]⟩] 5 0 =
      .ok [("r/a.java", "r/a.json"), ("r/b.java", "r/b.json")] := by
    simp +decide [FileFinder.get_all_files, FileFinder.mapE, FileFinder.process_src,
      FileFinder.process_meta, pyReplace, replaceFuel, joinPath, pyEndsWith,
      List.insertionSort, List.orderedInsert, List.reduceOption]
  have h₂ : FileFinder.get_all_files
      [⟨"r", [⟨"b.java", some 5⟩, ⟨"a.java", some 5⟩]⟩] 5 0 =
      .ok [("r/a.java", "r/a.json"), ("r/b.java", "r/b.json")] := by
    simp +decide [FileFinder.get_all_files, FileFinder.mapE, FileFinder.process_src,
      FileFinder.process_meta, pyReplace, replaceFuel, joinPath, pyEndsWith,
      List.insertionSort, List.orderedInsert, List.reduceOption]
  exact finder_sorted_and_traversal_independent _ _ 5 0 _ _ h₁ h₂
    ⟨[⟨"r", [⟨"a.java", some 5⟩, ⟨"b.java", some 5⟩]⟩], List.Perm.refl _,
      .cons ⟨rfl, List.Perm.swap (⟨"b.java", some 5⟩ : FileFinder.SrcFile) ⟨"a.java", some 5⟩ []⟩ .nil⟩

/-- C9 witness: a root with the single file `A.java`, answers declaring
the one-label vocabulary `["yes"]` and then labelling with `"yes"`:
`sample_size` 3 and 7 give identical runs, and the written table has
exactly the one row named `r/A.java`. -/
theorem labeller_ignores_sample_size_witness :
    (Labeller.main true [⟨"r", [⟨"A.java", "class A {}"⟩]⟩] "out.csv" 3 "readable"
        ["1", "yes", "yes"] =
      Labeller.main true [⟨"r", [⟨"A.java", "class A {}"⟩]⟩] "out.csv" 7 "readable"
        ["1", "yes", "yes"]) ∧
    ([{ file_name := "r/A.java", source := "class A {}", label := "yes" }] :
        List Labeller.Row).map Labeller.Row.file_name = ["r/A.java"] := by
  have h := labeller_ignores_sample_size true [⟨"r", [⟨"A.java", "class A {}"⟩]⟩]
    "out.csv" 3 7 "readable" ["1", "yes", "yes"]
    [{ file_name := "r/A.java", source := "class A {}", label := "yes" }] (by decide)
  exact ⟨h.1, by simp⟩

end BBMini
